import Mathlib

/-!
Verification of the UnoWiFi_DSC firmware (src/UnoWiFi_DSC.ino), ESP8266 half.

The development shallowly embeds the program state and its operations:

* `readFromSerial` embeds the C function of the same name (lines 205-230):
  `static int pos` becomes `SerialState.pos`, the NUL-terminated content of
  the global `char buf[BUFFER_SIZE]` becomes `SerialState.str` (a list of
  byte values), and the `int character = Serial.read()` argument is passed
  in explicitly as an `Int` (`-1` models "no byte available").  Storing a
  byte writes `buf[pos++] = character; buf[pos] = 0`, which on the
  NUL-terminated string view is `str.take pos ++ [character]`.
* `atol` models the C library function used at the call site
  (`Azimuth_pos = atol(buf)`, line 131): skip `isspace` characters, an
  optional sign, then accumulate decimal digits; it returns 0 when no
  digit follows.  On the ESP8266 `long` is 32 bits and newlib's
  `atol`/`strtol` clamp an out-of-range value to `LONG_MAX`/`LONG_MIN`,
  which `clampLong` reproduces.
* `serialPhase` / `systemStep` embed one iteration of `loop()`
  (lines 127-136) together with `attendTcpRequests` (lines 138-197).
* `scanAssign` embeds the client-accept scan (lines 142-158) and
  `dispatchSlot` the per-client command switch (lines 162-196).
* `setupNetwork` embeds the Wi-Fi bootstrap of `setup()` (lines 104-121):
  the boolean says whether `WiFi.status() == WL_CONNECTED` held after the
  5-second wait.
* `encAux`/`encDigits` model the sender side (the Arduino half's
  `Serial.println(AzimuthEncoder.read())`, line 245): the decimal ASCII
  digits of a natural number, most significant first.
-/

/-- Embeds `#define BUFFER_SIZE 80` (line 90). -/
def BUFFER_SIZE : Nat := 80

/-- Embeds `#define MAX_SRV_CLIENTS 3` (line 84). -/
def MAX_SRV_CLIENTS : Nat := 3

/-- Embeds `#define AZIMUTH_TOTAL_STEPS 10200` (line 81). -/
def AZIMUTH_TOTAL_STEPS : Nat := 10200

/-- Embeds `#define ALTITUDE_TOTAL_STEPS 10200` (line 82). -/
def ALTITUDE_TOTAL_STEPS : Nat := 10200

/-- State of the serial line parser: `pos` is the `static int pos` of
`readFromSerial`, `str` is the NUL-terminated content of the global
`char buf[BUFFER_SIZE]` (list of byte values, without the terminating NUL). -/
structure SerialState where
  pos : Nat
  str : List Nat
deriving DecidableEq

/-- Parser state at process start: `pos = 0`, `buf` zero-initialised
(empty C string). -/
def initSerial : SerialState := ⟨0, []⟩

/-- Embeds `int readFromSerial(char *buffer)` (lines 205-230).  The
`character` argument is the result of `Serial.read()`: `-1` when no byte is
available, otherwise the byte value.  Returns the new state and the `int`
return value of the C function.  Storing a byte truncates it to `char`
(modelled as `% 256`). -/
def readFromSerial (s : SerialState) (character : Int) : SerialState × Int :=
  if 0 < character then
    if character = 13 then (s, 0)
    else if character = 10 then ({ s with pos := 0 }, Int.ofNat s.pos)
    else if s.pos < BUFFER_SIZE - 1 then
      (⟨s.pos + 1, s.str.take s.pos ++ [character.toNat % 256]⟩, 0)
    else (s, 0)
  else (s, 0)

/-- Feeds a sequence of `Serial.read()` results to the parser, keeping only
the state (one call of `readFromSerial` per `loop()` iteration). -/
def runParser (s : SerialState) (input : List Int) : SerialState :=
  input.foldl (fun st c => (readFromSerial st c).1) s

/-- Embeds C `isspace` for the byte values `atol`/`strtol` skip:
space and `\t \n \v \f \r`. -/
def isSpaceCode (c : Nat) : Bool := c = 32 || (9 ≤ c && c ≤ 13)

/-- Embeds the digit-accumulation loop of `atol`/`strtol`: consume leading
decimal digits, stopping at the first non-digit, folding into `acc`. -/
def parseDigits : List Nat → Int → Int
  | [], acc => acc
  | c :: rest, acc =>
    if 48 ≤ c ∧ c ≤ 57 then parseDigits rest (acc * 10 + Int.ofNat (c - 48)) else acc

/-- Largest value of the target's 32-bit `long` (ESP8266, newlib). -/
def LONG_MAX : Int := 2147483647

/-- Smallest value of the target's 32-bit `long` (ESP8266, newlib). -/
def LONG_MIN : Int := -2147483648

/-- Overflow behaviour of newlib `atol`/`strtol` on the 32-bit target: a
value outside the `long` range is clamped to `LONG_MAX` or `LONG_MIN`. -/
def clampLong (v : Int) : Int :=
  if v > LONG_MAX then LONG_MAX
  else if v < LONG_MIN then LONG_MIN
  else v

/-- Models the C library `atol` applied to the NUL-terminated buffer:
skip whitespace, optional `+`/`-` sign, then decimal digits, the result
clamped to the 32-bit `long` range; yields 0 when no digit can be
consumed. -/
def atol (l : List Nat) : Int :=
  match l.dropWhile isSpaceCode with
  | [] => 0
  | c :: rest =>
    if c = 43 then clampLong (parseDigits rest 0)
    else if c = 45 then clampLong (-(parseDigits rest 0))
    else clampLong (parseDigits (c :: rest) 0)

/-- A byte value that `readFromSerial` stores into the buffer: available
(`> 0`), a genuine byte, and neither `\n` nor `\r`. -/
def PlainByte (c : Nat) : Prop := 0 < c ∧ c < 256 ∧ c ≠ 10 ∧ c ≠ 13

instance (c : Nat) : Decidable (PlainByte c) := by
  unfold PlainByte; infer_instance

/-- Holds when the line has no leading integer for `atol` to consume
(after whitespace and an optional sign, the next character is not a decimal
digit): exactly the lines on which `atol` returns 0 for lack of digits. -/
def leadingDigitFree (l : List Nat) : Bool :=
  match l.dropWhile isSpaceCode with
  | [] => true
  | c :: rest =>
    if c = 43 ∨ c = 45 then
      match rest with
      | [] => true
      | d :: _ => !(48 ≤ d && d ≤ 57)
    else !(48 ≤ c && c ≤ 57)

/-- Fuel-indexed decimal encoder; `fuel > n` suffices for the recursion to
complete.  Models the digit output of Arduino `Serial.println(long)` for a
non-negative value. -/
def encAux : Nat → Nat → List Nat
  | 0, _ => []
  | fuel + 1, n =>
    if n < 10 then [n + 48] else encAux fuel (n / 10) ++ [n % 10 + 48]

/-- Decimal ASCII digits of `n`, most significant first: the line body the
Arduino half sends for encoder value `n` (line 245). -/
def encDigits (n : Nat) : List Nat := encAux (n + 1) n

/-- An IPv4 address, four octets. -/
structure IPv4 where
  a : Nat
  b : Nat
  c : Nat
  d : Nat
deriving DecidableEq

/-- The resolved reachability mode produced by `setup()`: joined an
external network (dynamic address) or self-hosting the fixed access point. -/
inductive NetworkIdentity where
  | joined (addr : IPv4)
  | selfHosted (ip gateway subnet : IPv4) (apName apPass : String)
deriving DecidableEq

/-- Embeds `#define WiFi_Access_Point_Name "TelescopeDSC"` (line 77). -/
def WiFi_Access_Point_Name : String := "TelescopeDSC"

/-- Embeds `#define WiFi_Access_Point_Passw "Fluorite"` (line 78). -/
def WiFi_Access_Point_Passw : String := "Fluorite"

/-- Embeds the Wi-Fi bootstrap of `setup()` (lines 104-121): `joinOk` is
whether `WiFi.status() == WL_CONNECTED` held after the 5-second wait
(`delay(5000)`); on failure the fixed `softAPConfig(ip, gateway, subnet)`
of lines 111-113 is used.  `setup()` runs exactly once at process start. -/
def setupNetwork (joinOk : Bool) (assigned : IPv4) : NetworkIdentity :=
  if joinOk then .joined assigned
  else .selfHosted ⟨1, 2, 3, 4⟩ ⟨1, 2, 3, 1⟩ ⟨255, 255, 255, 0⟩
    WiFi_Access_Point_Name WiFi_Access_Point_Passw

/-- One entry of `WiFiClient serverClients[MAX_SRV_CLIENTS]` (line 89):
`valid` is the C++ `operator bool` of the `WiFiClient` (a client object is
held), `connected` its `connected()`, `cid` an abstract identity of the
underlying connection, and `inbox` the bytes buffered for `available()` /
`read()`. -/
structure Slot where
  valid : Bool
  connected : Bool
  cid : Nat
  inbox : List Nat
deriving DecidableEq

/-- A slot with no client object, as at process start. -/
def emptySlot : Slot := ⟨false, false, 0, []⟩

/-- Embeds the slot test of line 145:
`!serverClients[i] || !serverClients[i].connected()`. -/
def slotFree (s : Slot) : Bool := !s.valid || !s.connected

/-- Observable side effects of the accept scan (lines 142-158). -/
inductive PoolEvent where
  | stopStale (idx : Nat)
  | assignSlot (idx : Nat) (cid : Nat)
  | acceptAndClose (cid : Nat)
deriving DecidableEq

/-- Shifts the slot index of an event by one (used when the scan skips a
busy slot). -/
def bumpEvent : PoolEvent → PoolEvent
  | .stopStale i => .stopStale (i + 1)
  | .assignSlot i cid => .assignSlot (i + 1) cid
  | .acceptAndClose cid => .acceptAndClose cid

/-- Embeds the scan of lines 143-158: find the first free or disconnected
slot, `stop()` a stale handle before reuse (line 147), and assign the
pending client (`server.available()`, modelled by `nc`); if the scan
reaches `i == MAX_SRV_CLIENTS`, accept and immediately `stop()` the
pending client (lines 155-158). -/
def scanAssign : List Slot → Slot → List Slot × List PoolEvent
  | [], nc => ([], [.acceptAndClose nc.cid])
  | s :: rest, nc =>
    if slotFree s then
      (nc :: rest,
        (if s.valid then [.stopStale 0] else []) ++ [.assignSlot 0 nc.cid])
    else
      let r := scanAssign rest nc
      (s :: r.1, r.2.map bumpEvent)

/-- Embeds the `if (server.hasClient())` guard of line 142 around the
scan. -/
def acceptPhase (pool : List Slot) (hasClient : Bool) (nc : Slot) :
    List Slot × List PoolEvent :=
  if hasClient then scanAssign pool nc else (pool, [])

/-- Takes the NUL-free byte values of an ASCII string. -/
def strBytes (s : String) : List Nat := s.toList.map Char.toNat

/-- Embeds `sprintf(response, "%i\t%i\t\n", Azimuth_pos, Altitude_pos)`
(lines 173 and 181): the formatted response/body string. -/
def formatQ (az alt : Int) : String :=
  toString az ++ "\t" ++ toString alt ++ "\t\n"

/-- Bytes sent by `serverClients[i].println(response)` for the `Q` command
(line 174): Arduino `println` writes the string and appends `"\r\n"`. -/
def qBytes (az alt : Int) : List Nat :=
  strBytes (formatQ az alt) ++ strBytes "\r\n"

/-- Embeds `snprintf(response, 20, "%u-%u", AZIMUTH_TOTAL_STEPS,
ALTITUDE_TOTAL_STEPS)` (line 177, truncated to 19 characters) followed by
`println` (line 178). -/
def hBytes : List Nat :=
  strBytes ((toString AZIMUTH_TOTAL_STEPS ++ "-" ++
    toString ALTITUDE_TOTAL_STEPS).take 19) ++ strBytes "\r\n"

/-- Observable per-client side effects of one dispatch (lines 168-192). -/
inductive TcpEvent where
  | send (bytes : List Nat)
  | drainInbox
  | flush
  | stopConn
deriving DecidableEq

/-- Header string literal of the `G` branch (line 182). -/
def httpHeaderStr : String :=
  "HTTP/1.1 200 OK\r\nContent-type: text/plain\r\nContent-length:"

/-- Events of the `G` branch (lines 181-191): send the header literal,
then `write(contentSize)` — a SINGLE raw byte whose value is the `sprintf`
return (the body string length, truncated to `uint8_t`) — then the blank
line, then `println(response)` (body plus `"\r\n"`), then drain remaining
input (lines 186-189), `flush()` and `stop()`. -/
def gEvents (az alt : Int) : List TcpEvent :=
  [ .send (strBytes httpHeaderStr),
    .send [(formatQ az alt).length % 256],
    .send (strBytes "\r\n\r\n"),
    .send (strBytes (formatQ az alt) ++ strBytes "\r\n"),
    .drainInbox, .flush, .stopConn ]

/-- Embeds the per-client body of the dispatch loop (lines 164-195): when
the slot holds a connected client with input available, read ONE byte as
the command and answer; `Q` = 81, `H` = 72, `G` = 71; any other byte is
consumed without a response.  The `G` branch drains the inbox and stops
the connection. -/
def dispatchSlot (az alt : Int) (c : Slot) : Slot × List TcpEvent :=
  if c.valid && c.connected then
    match c.inbox with
    | [] => (c, [])
    | cmd :: rest =>
      if cmd = 81 then ({ c with inbox := rest }, [.send (qBytes az alt)])
      else if cmd = 72 then ({ c with inbox := rest }, [.send hBytes])
      else if cmd = 71 then
        ({ c with inbox := [], connected := false }, gEvents az alt)
      else ({ c with inbox := rest }, [])
  else (c, [])

/-- The dispatch loop over all slots (lines 162-196), slot by slot. -/
def dispatchAll (az alt : Int) (pool : List Slot) : List (Slot × List TcpEvent) :=
  pool.map (dispatchSlot az alt)

/-- Whole state of the ESP8266 program: the network identity fixed by
`setup()`, the serial parser state, the two position globals
(`Azimuth_pos`, `Altitude_pos`, zero-initialised, lines 93-94), and the
client slots. -/
structure SystemState where
  net : NetworkIdentity
  serial : SerialState
  azimuth : Int
  altitude : Int
  pool : List Slot
deriving DecidableEq

/-- Environment input consumed by one `loop()` iteration: the
`Serial.read()` result, the altitude encoder reading, whether
`server.hasClient()` holds, and the pending client in that case. -/
structure LoopInput where
  serialByte : Int
  altReading : Int
  hasClient : Bool
  newClient : Slot
deriving DecidableEq

/-- Serial half of `loop()` (lines 129-132): call `readFromSerial`, and if
it returned a positive count assign `Azimuth_pos = atol(buf)`. -/
def serialPhase (s : SerialState) (az : Int) (c : Int) : SerialState × Int :=
  let r := readFromSerial s c
  (r.1, if 0 < r.2 then atol r.1.str else az)

/-- One full `loop()` iteration (lines 127-136): serial phase, altitude
encoder read, then `attendTcpRequests` (accept scan followed by the
dispatch loop), with the network identity untouched. -/
def systemStep (st : SystemState) (inp : LoopInput) : SystemState :=
  let sp := serialPhase st.serial st.azimuth inp.serialByte
  let pool1 := (acceptPhase st.pool inp.hasClient inp.newClient).1
  { net := st.net
    serial := sp.1
    azimuth := sp.2
    altitude := inp.altReading
    pool := pool1.map (fun c => (dispatchSlot sp.2 inp.altReading c).1) }

/-- Runs `loop()` over a list of per-iteration inputs. -/
def runSystem (st : SystemState) (inputs : List LoopInput) : SystemState :=
  inputs.foldl systemStep st

/-- Process state right after `setup()`: network identity resolved,
parser and both position globals at zero, all client slots empty. -/
def initSystem (joinOk : Bool) (assigned : IPv4) : SystemState :=
  { net := setupNetwork joinOk assigned
    serial := initSerial
    azimuth := 0
    altitude := 0
    pool := List.replicate MAX_SRV_CLIENTS emptySlot }

/-- Loop inputs for a quiet network: one serial byte per iteration, no
pending client. -/
def serialInputs (cs : List Int) : List LoopInput :=
  cs.map fun c => ⟨c, 0, false, emptySlot⟩

/-- The serial-and-azimuth projection of the run loop: repeated
`serialPhase` over the incoming `Serial.read()` results. -/
def runSA (q : SerialState × Int) (cs : List Int) : SerialState × Int :=
  cs.foldl (fun p c => serialPhase p.1 p.2 c) q

/-- Number of live (valid and connected) client connections in the pool. -/
def countLive (pool : List Slot) : Nat :=
  (pool.filter (fun s => s.valid && s.connected)).length

theorem runParser_nil (s : SerialState) : runParser s [] = s := rfl

theorem runParser_cons (s : SerialState) (c : Int) (rest : List Int) :
    runParser s (c :: rest) = runParser (readFromSerial s c).1 rest := rfl

theorem runParser_append (s : SerialState) (a b : List Int) :
    runParser s (a ++ b) = runParser (runParser s a) b := by
  simp [runParser]

theorem readFromSerial_plain (s : SerialState) (c : Nat) (h : PlainByte c) :
    readFromSerial s (Int.ofNat c) =
      ((if s.pos < BUFFER_SIZE - 1 then ⟨s.pos + 1, s.str.take s.pos ++ [c]⟩
        else s : SerialState), 0) := by
  obtain ⟨h1, h2, h3, h4⟩ := h
  have hc0 : (0 : Int) < Int.ofNat c := Int.ofNat_pos.mpr h1
  have hc13 : (Int.ofNat c) ≠ 13 := fun hx => h4 (Int.ofNat.inj hx)
  have hc10 : (Int.ofNat c) ≠ 10 := fun hx => h3 (Int.ofNat.inj hx)
  have hmod : (Int.ofNat c).toNat % 256 = c := by
    simp [Nat.mod_eq_of_lt h2]
  rw [readFromSerial, if_pos hc0, if_neg hc13, if_neg hc10]
  by_cases hp : s.pos < BUFFER_SIZE - 1
  · rw [if_pos hp, if_pos hp, hmod]
  · rw [if_neg hp, if_neg hp]

theorem runParser_plain (l : List Nat) : ∀ (p : Nat) (v : List Nat),
    (∀ c ∈ l, PlainByte c) → v.length = p → p ≤ BUFFER_SIZE - 1 →
    runParser ⟨p, v⟩ (l.map Int.ofNat) =
      ⟨min (p + l.length) (BUFFER_SIZE - 1),
        v ++ l.take (BUFFER_SIZE - 1 - p)⟩ := by
  induction l with
  | nil =>
    intro p v _ hv hp
    simp only [List.map_nil, runParser_nil, List.take_nil, List.append_nil,
      List.length_nil, Nat.add_zero, SerialState.mk.injEq]
    exact ⟨by omega, trivial⟩
  | cons c l ih =>
    intro p v hpl hv hp
    have hc := hpl c (List.mem_cons_self _ _)
    rw [List.map_cons, runParser_cons, readFromSerial_plain _ c hc]
    by_cases hlt : p < BUFFER_SIZE - 1
    · rw [if_pos hlt]
      have htk : v.take p = v := by rw [← hv]; exact List.take_length v
      rw [htk]
      have := ih (p + 1) (v ++ [c])
        (fun d hd => hpl d (List.mem_cons_of_mem _ hd))
        (by simp [hv]) (by omega)
      rw [this]
      have hsub : BUFFER_SIZE - 1 - p = (BUFFER_SIZE - 1 - (p + 1)) + 1 := by omega
      rw [hsub, List.take_succ_cons, SerialState.mk.injEq]
      constructor
      · simp only [List.length_cons]
        omega
      · simp
    · rw [if_neg hlt]
      have hpe : p = BUFFER_SIZE - 1 := by omega
      have := ih p v (fun d hd => hpl d (List.mem_cons_of_mem _ hd)) hv hp
      rw [this, SerialState.mk.injEq]
      subst hpe
      constructor
      · simp only [List.length_cons]
        omega
      · simp

theorem runParser_line (u : List Nat) (l : List Nat)
    (hpl : ∀ c ∈ l, PlainByte c) (hne : l ≠ [])
    (hlen : l.length ≤ BUFFER_SIZE - 1) :
    runParser ⟨0, u⟩ (l.map Int.ofNat) = ⟨l.length, l⟩ := by
  cases l with
  | nil => exact absurd rfl hne
  | cons c l2 =>
    have hc := hpl c (List.mem_cons_self _ _)
    rw [List.map_cons, runParser_cons, readFromSerial_plain _ c hc]
    have h0 : (0 : Nat) < BUFFER_SIZE - 1 := by simp [BUFFER_SIZE]
    rw [if_pos h0]
    have := runParser_plain l2 1 [c]
      (fun d hd => hpl d (List.mem_cons_of_mem _ hd)) rfl (by simp [BUFFER_SIZE])
    simp only [List.take_zero, List.nil_append] at this ⊢
    rw [this, SerialState.mk.injEq]
    simp only [List.length_cons] at hlen ⊢
    constructor
    · omega
    · have : l2.take (BUFFER_SIZE - 1 - 1) = l2 :=
        List.take_of_length_le (by omega)
      rw [this]
      rfl

theorem readFromSerial_nonpos (s : SerialState) (c : Int) (h : c ≤ 0) :
    readFromSerial s c = (s, 0) := by
  rw [readFromSerial, if_neg (by omega)]

theorem readFromSerial_pos_le (s : SerialState) (c : Int)
    (h : s.pos ≤ BUFFER_SIZE - 1) :
    (readFromSerial s c).1.pos ≤ BUFFER_SIZE - 1 := by
  by_cases h0 : 0 < c
  · by_cases h13 : c = 13
    · simpa [readFromSerial, h0, h13]
    · by_cases h10 : c = 10
      · simp [readFromSerial, h0, h13, h10]
      · by_cases hp : s.pos < BUFFER_SIZE - 1
        · simp only [readFromSerial, if_pos h0, if_neg h13, if_neg h10, if_pos hp]
          omega
        · simpa [readFromSerial, h0, h13, h10, hp]
  · simpa [readFromSerial_nonpos s c (by omega)]

theorem runParser_pos_le (input : List Int) : ∀ s : SerialState,
    s.pos ≤ BUFFER_SIZE - 1 → (runParser s input).pos ≤ BUFFER_SIZE - 1 := by
  induction input with
  | nil => intro s h; exact h
  | cons c rest ih =>
    intro s h
    rw [runParser_cons]
    exact ih _ (readFromSerial_pos_le s c h)

theorem readFromSerial_pos_mono (s : SerialState) (c : Int) (h : c ≠ 10) :
    s.pos ≤ (readFromSerial s c).1.pos := by
  by_cases h0 : 0 < c
  · by_cases h13 : c = 13
    · simp [readFromSerial, h0, h13]
    · by_cases hp : s.pos < BUFFER_SIZE - 1
      · simp only [readFromSerial, if_pos h0, if_neg h13, if_neg h, if_pos hp]
        omega
      · simp [readFromSerial, h0, h13, h, hp]
  · simp [readFromSerial_nonpos s c (by omega)]

theorem readFromSerial_full (s : SerialState) (c : Int)
    (hpos : s.pos = BUFFER_SIZE - 1) (h0 : 0 < c) (h10 : c ≠ 10) (h13 : c ≠ 13) :
    readFromSerial s c = (s, 0) := by
  rw [readFromSerial, if_pos h0, if_neg h13, if_neg h10,
    if_neg (by omega)]

theorem encAux_ne_nil : ∀ fuel n, n < fuel → encAux fuel n ≠ [] := by
  intro fuel
  induction fuel with
  | zero => intro n h; omega
  | succ f ih =>
    intro n h
    rw [encAux]
    by_cases h10 : n < 10
    · simp [h10]
    · simp [h10]

theorem encAux_mem : ∀ fuel n, n < fuel → ∀ c ∈ encAux fuel n, 48 ≤ c ∧ c ≤ 57 := by
  intro fuel
  induction fuel with
  | zero => intro n h; omega
  | succ f ih =>
    intro n h c hm
    rw [encAux] at hm
    by_cases h10 : n < 10
    · rw [if_pos h10] at hm
      simp only [List.mem_singleton] at hm
      omega
    · rw [if_neg h10] at hm
      rcases List.mem_append.mp hm with h1 | h2
      · have hd : n / 10 < n := Nat.div_lt_self (by omega) (by omega)
        exact ih (n / 10) (by omega) c h1
      · simp only [List.mem_singleton] at h2
        have hmlt : n % 10 < 10 := Nat.mod_lt _ (by omega)
        omega

theorem parseDigits_append (xs ys : List Nat) (hx : ∀ c ∈ xs, 48 ≤ c ∧ c ≤ 57) :
    ∀ acc : Int, parseDigits (xs ++ ys) acc = parseDigits ys (parseDigits xs acc) := by
  induction xs with
  | nil => intro acc; rfl
  | cons c xs ih =>
    intro acc
    have hc := hx c (List.mem_cons_self _ _)
    simp only [List.cons_append, parseDigits, if_pos hc]
    exact ih (fun d hd => hx d (List.mem_cons_of_mem _ hd)) _

theorem parseDigits_encAux : ∀ fuel n, n < fuel → ∀ acc : Int,
    parseDigits (encAux fuel n) acc =
      acc * 10 ^ (encAux fuel n).length + n := by
  intro fuel
  induction fuel with
  | zero => intro n h; omega
  | succ f ih =>
    intro n h acc
    by_cases h10 : n < 10
    · rw [encAux, if_pos h10]
      have hd : 48 ≤ n + 48 ∧ n + 48 ≤ 57 := by omega
      simp only [parseDigits, if_pos hd, List.length_singleton, pow_one]
      have : n + 48 - 48 = n := by omega
      rw [this]
      rfl
    · rw [encAux, if_neg h10]
      have hdlt : n / 10 < n := Nat.div_lt_self (by omega) (by omega)
      have hfuel : n / 10 < f := by omega
      rw [parseDigits_append _ _ (encAux_mem f (n / 10) hfuel) acc]
      rw [ih (n / 10) hfuel acc]
      have hmd : 48 ≤ n % 10 + 48 ∧ n % 10 + 48 ≤ 57 := by
        have : n % 10 < 10 := Nat.mod_lt _ (by omega)
        omega
      simp only [parseDigits, if_pos hmd, List.length_append,
        List.length_singleton]
      have hsub : n % 10 + 48 - 48 = n % 10 := by omega
      rw [hsub]
      have hnat : 10 * (n / 10) + n % 10 = n := Nat.div_add_mod n 10
      have key : (10 : Int) * ((n / 10 : Nat) : Int) + ((n % 10 : Nat) : Int) = (n : Int) := by
        exact_mod_cast hnat
      rw [pow_succ]
      simp only [Int.ofNat_eq_natCast]
      linear_combination key

theorem encDigits_ne_nil (n : Nat) : encDigits n ≠ [] :=
  encAux_ne_nil (n + 1) n (by omega)

theorem encDigits_mem (n : Nat) : ∀ c ∈ encDigits n, 48 ≤ c ∧ c ≤ 57 :=
  encAux_mem (n + 1) n (by omega)

theorem encDigits_plain (n : Nat) : ∀ c ∈ encDigits n, PlainByte c := by
  intro c hc
  have := encDigits_mem n c hc
  exact ⟨by omega, by omega, by omega, by omega⟩

theorem parseDigits_encDigits (n : Nat) : parseDigits (encDigits n) 0 = n := by
  have := parseDigits_encAux (n + 1) n (by omega) 0
  simpa using this

theorem clampLong_of_mem (v : Int) (h1 : LONG_MIN ≤ v) (h2 : v ≤ LONG_MAX) :
    clampLong v = v := by
  rw [clampLong, if_neg (by omega), if_neg (by omega)]

theorem atol_encDigits (n : Nat) (hn : n ≤ 2147483647) :
    atol (encDigits n) = n := by
  obtain ⟨c, rest, hcr⟩ : ∃ c rest, encDigits n = c :: rest := by
    cases h : encDigits n with
    | nil => exact absurd h (encDigits_ne_nil n)
    | cons c rest => exact ⟨c, rest, rfl⟩
  have hc : 48 ≤ c ∧ c ≤ 57 := encDigits_mem n c (by rw [hcr]; exact List.mem_cons_self _ _)
  have hsp : isSpaceCode c = false := by
    simp only [isSpaceCode, Bool.or_eq_false_iff, decide_eq_false_iff_not,
      Bool.and_eq_false_iff]
    omega
  have hp := parseDigits_encDigits n
  rw [hcr] at hp ⊢
  rw [atol]
  simp only [List.dropWhile_cons, hsp, Bool.false_eq_true, if_false]
  rw [if_neg (by omega), if_neg (by omega), hp]
  exact clampLong_of_mem _ (by rw [LONG_MIN]; omega) (by rw [LONG_MAX]; exact_mod_cast hn)

theorem parseDigits_head_nondigit (c : Nat) (rest : List Nat) (acc : Int)
    (h : ¬(48 ≤ c ∧ c ≤ 57)) : parseDigits (c :: rest) acc = acc := by
  rw [parseDigits, if_neg h]

theorem clampLong_zero : clampLong 0 = 0 := by decide

theorem atol_of_leadingDigitFree (l : List Nat) (h : leadingDigitFree l = true) :
    atol l = 0 := by
  rw [atol]
  rw [leadingDigitFree] at h
  cases hdw : l.dropWhile isSpaceCode with
  | nil => rfl
  | cons c rest =>
    rw [hdw] at h
    change (if c = 43 then clampLong (parseDigits rest 0)
      else if c = 45 then clampLong (-(parseDigits rest 0))
      else clampLong (parseDigits (c :: rest) 0)) = 0
    cases rest with
    | nil =>
      have h3 : (if c = 43 ∨ c = 45 then true else !(48 ≤ c && c ≤ 57)) = true := h
      by_cases hc : c = 43 ∨ c = 45
      · rcases hc with hc | hc <;> subst hc <;> simp [parseDigits] <;> decide
      · push_neg at hc
        rw [if_neg (by tauto)] at h3
        have hcnd : ¬(48 ≤ c ∧ c ≤ 57) := by
          simp only [Bool.not_eq_eq_eq_not, Bool.not_true, Bool.and_eq_false_iff,
            decide_eq_false_iff_not] at h3
          omega
        rw [if_neg hc.1, if_neg hc.2, parseDigits_head_nondigit c [] 0 hcnd]
        exact clampLong_zero
    | cons d tail =>
      have h3 : (if c = 43 ∨ c = 45 then !(48 ≤ d && d ≤ 57)
          else !(48 ≤ c && c ≤ 57)) = true := h
      by_cases hc : c = 43 ∨ c = 45
      · rw [if_pos hc] at h3
        have hd : ¬(48 ≤ d ∧ d ≤ 57) := by
          simp only [Bool.not_eq_eq_eq_not, Bool.not_true, Bool.and_eq_false_iff,
            decide_eq_false_iff_not] at h3
          omega
        rcases hc with hc | hc <;> subst hc
        · rw [if_pos rfl, parseDigits_head_nondigit d tail 0 hd]
          exact clampLong_zero
        · rw [if_neg (by omega), if_pos rfl, parseDigits_head_nondigit d tail 0 hd,
            neg_zero]
          exact clampLong_zero
      · push_neg at hc
        rw [if_neg (by tauto)] at h3
        have hcnd : ¬(48 ≤ c ∧ c ≤ 57) := by
          simp only [Bool.not_eq_eq_eq_not, Bool.not_true, Bool.and_eq_false_iff,
            decide_eq_false_iff_not] at h3
          omega
        rw [if_neg hc.1, if_neg hc.2, parseDigits_head_nondigit c (d :: tail) 0 hcnd]
        exact clampLong_zero

theorem serialPhase_plain (s : SerialState) (az : Int) (c : Nat) (h : PlainByte c) :
    serialPhase s az (Int.ofNat c) = ((readFromSerial s (Int.ofNat c)).1, az) := by
  rw [serialPhase, readFromSerial_plain s c h]
  simp

theorem serialPhase_newline (s : SerialState) (az : Int) (h : 0 < s.pos) :
    serialPhase s az 10 = (⟨0, s.str⟩, atol s.str) := by
  rw [serialPhase, readFromSerial]
  rw [if_pos (by norm_num), if_neg (by norm_num), if_pos rfl]
  simp only [Prod.mk.injEq]
  constructor
  · trivial
  · rw [if_pos (show 0 < Int.ofNat s.pos from Int.ofNat_pos.mpr h)]

theorem runSA_cons (q : SerialState × Int) (c : Int) (cs : List Int) :
    runSA q (c :: cs) = runSA (serialPhase q.1 q.2 c) cs := rfl

theorem runSA_append (q : SerialState × Int) (a b : List Int) :
    runSA q (a ++ b) = runSA (runSA q a) b := by
  simp [runSA]

theorem runSA_plain (l : List Nat) : ∀ (s : SerialState) (az : Int),
    (∀ c ∈ l, PlainByte c) →
    runSA (s, az) (l.map Int.ofNat) = (runParser s (l.map Int.ofNat), az) := by
  induction l with
  | nil => intro s az _; rfl
  | cons c l ih =>
    intro s az h
    have hc := h c (List.mem_cons_self _ _)
    rw [List.map_cons, runSA_cons, runParser_cons]
    rw [serialPhase_plain s az c hc]
    exact ih _ _ (fun d hd => h d (List.mem_cons_of_mem _ hd))

theorem runSA_line (u : List Nat) (l : List Nat) (az : Int)
    (hpl : ∀ c ∈ l, PlainByte c) (hne : l ≠ [])
    (hlen : l.length ≤ BUFFER_SIZE - 1) :
    runSA (⟨0, u⟩, az) (l.map Int.ofNat ++ [10]) = (⟨0, l⟩, atol l) := by
  rw [runSA_append, runSA_plain l _ _ hpl, runParser_line u l hpl hne hlen]
  have hpos : 0 < (⟨l.length, l⟩ : SerialState).pos := by
    simp only []
    cases l with
    | nil => exact absurd rfl hne
    | cons c l2 => simp
  rw [runSA_cons, serialPhase_newline _ _ hpos]
  rfl

theorem systemStep_serial (st : SystemState) (inp : LoopInput) :
    (systemStep st inp).serial = (serialPhase st.serial st.azimuth inp.serialByte).1 := rfl

theorem systemStep_azimuth (st : SystemState) (inp : LoopInput) :
    (systemStep st inp).azimuth = (serialPhase st.serial st.azimuth inp.serialByte).2 := rfl

theorem systemStep_net (st : SystemState) (inp : LoopInput) :
    (systemStep st inp).net = st.net := rfl

theorem runSystem_net (inputs : List LoopInput) : ∀ st : SystemState,
    (runSystem st inputs).net = st.net := by
  induction inputs with
  | nil => intro st; rfl
  | cons i is ih =>
    intro st
    have : runSystem st (i :: is) = runSystem (systemStep st i) is := rfl
    rw [this, ih, systemStep_net]

theorem runSystem_sa (cs : List Int) : ∀ st : SystemState,
    ((runSystem st (serialInputs cs)).serial, (runSystem st (serialInputs cs)).azimuth) =
      runSA (st.serial, st.azimuth) cs := by
  induction cs with
  | nil => intro st; rfl
  | cons c cs ih =>
    intro st
    have h1 : serialInputs (c :: cs) = ⟨c, 0, false, emptySlot⟩ :: serialInputs cs := rfl
    have h2 : runSystem st (⟨c, 0, false, emptySlot⟩ :: serialInputs cs) =
        runSystem (systemStep st ⟨c, 0, false, emptySlot⟩) (serialInputs cs) := rfl
    rw [h1, h2, ih, runSA_cons, systemStep_serial, systemStep_azimuth]

theorem countLive_le (pool : List Slot) : countLive pool ≤ pool.length :=
  List.length_filter_le _ pool

theorem scanAssign_busy (s : Slot) (rest : List Slot) (nc : Slot)
    (h : slotFree s = false) :
    scanAssign (s :: rest) nc =
      (s :: (scanAssign rest nc).1, (scanAssign rest nc).2.map bumpEvent) := by
  rw [scanAssign, if_neg (by simp [h])]

theorem scanAssign_free (s : Slot) (rest : List Slot) (nc : Slot)
    (h : slotFree s = true) :
    scanAssign (s :: rest) nc =
      (nc :: rest,
        (if s.valid = true then [PoolEvent.stopStale 0] else []) ++
          [PoolEvent.assignSlot 0 nc.cid]) := by
  rw [scanAssign, if_pos h]

theorem scanAssign_allBusy (pool : List Slot) (nc : Slot)
    (h : ∀ x ∈ pool, slotFree x = false) :
    scanAssign pool nc = (pool, [PoolEvent.acceptAndClose nc.cid]) := by
  induction pool with
  | nil => rfl
  | cons s rest ih =>
    rw [scanAssign_busy s rest nc (h s (List.mem_cons_self _ _))]
    rw [ih (fun x hx => h x (List.mem_cons_of_mem _ hx))]
    rfl

theorem scanAssign_firstFree (a : List Slot) (s : Slot) (b : List Slot) (nc : Slot)
    (ha : ∀ x ∈ a, slotFree x = false) (hs : slotFree s = true) :
    scanAssign (a ++ s :: b) nc =
      (a ++ nc :: b,
        (if s.valid = true then [PoolEvent.stopStale a.length] else []) ++
          [PoolEvent.assignSlot a.length nc.cid]) := by
  induction a with
  | nil => simpa using scanAssign_free s b nc hs
  | cons x a2 ih =>
    rw [List.cons_append, scanAssign_busy x _ nc (ha x (List.mem_cons_self _ _))]
    rw [ih (fun y hy => ha y (List.mem_cons_of_mem _ hy))]
    by_cases hv : s.valid = true <;>
      simp [hv, bumpEvent, List.length_cons]

theorem slotFree_false_live (x : Slot) (h : slotFree x = false) :
    x.valid = true ∧ x.connected = true := by
  simpa [slotFree] using h

/-- C10: for every call of `readFromSerial` in which the incoming byte has
value 0 (ASCII NUL), the parser behaves exactly as for no byte available
(`Serial.read() == -1`): it returns 0 and leaves the buffer contents and the
accumulated position unchanged, because the `character > 0` guard of line
211 excludes NUL. -/
theorem c10_nul_byte_ignored (s : SerialState) :
    readFromSerial s 0 = (s, 0) ∧ readFromSerial s (-1) = (s, 0) :=
  ⟨readFromSerial_nonpos s 0 (by norm_num), readFromSerial_nonpos s (-1) (by norm_num)⟩

/-- C9: if the external network join has not succeeded when the startup
timeout expires (`WiFi.status() != WL_CONNECTED` after the 5-second wait),
`setup()` deterministically ends in self-hosting mode with the fixed address
1.2.3.4, gateway 1.2.3.1, subnet 255.255.255.0; the bootstrap runs exactly
once per process lifetime (only in `initSystem`) and no `loop()` iteration
ever changes the network identity, so joining is never re-attempted. -/
theorem c9_fallback_self_hosting (addr : IPv4) :
    setupNetwork false addr =
      NetworkIdentity.selfHosted ⟨1, 2, 3, 4⟩ ⟨1, 2, 3, 1⟩ ⟨255, 255, 255, 0⟩
        WiFi_Access_Point_Name WiFi_Access_Point_Passw ∧
    (initSystem false addr).net = setupNetwork false addr ∧
    (∀ (st : SystemState) (inputs : List LoopInput),
      (runSystem st inputs).net = st.net) :=
  ⟨rfl, rfl, fun st inputs => runSystem_net inputs st⟩

/-- C6 counterexample: a line-feed arriving while the buffer is empty
produces exactly the same observable outcome as no byte being available —
both calls return `(initSerial, 0)` — so the caller can NOT distinguish an
empty completed line from "nothing completed", contrary to the claim. -/
theorem c6_counterexample :
    readFromSerial initSerial 10 = (initSerial, 0) ∧
    readFromSerial initSerial (-1) = (initSerial, 0) := by
  exact ⟨rfl, rfl⟩

/-- C6 (amended): when a line-feed arrives while the accumulated buffer is
empty, the parser returns 0 — the same value it returns when no byte is
available — so the caller (which tests `> 0` at line 129) treats an empty
line exactly like "nothing completed" and performs no update. -/
theorem c6_empty_line_indistinguishable (s : SerialState) (az : Int)
    (h : s.pos = 0) :
    readFromSerial s 10 = (s, 0) ∧
    (readFromSerial s 10).2 = (readFromSerial s (-1)).2 ∧
    serialPhase s az 10 = (s, az) := by
  obtain ⟨p, u⟩ := s
  have hp : p = 0 := h
  subst hp
  exact ⟨rfl, rfl, rfl⟩

/-- C6 witness: the amended theorem at the initial parser state with the
stored azimuth 7. -/
theorem c6_witness :
    readFromSerial initSerial 10 = (initSerial, 0) ∧
    (readFromSerial initSerial 10).2 = (readFromSerial initSerial (-1)).2 ∧
    serialPhase initSerial 7 10 = (initSerial, 7) :=
  c6_empty_line_indistinguishable initSerial 7 rfl

/-- C7: with all `MAX_SRV_CLIENTS = 3` slots holding live connections, a
fourth pending connection is accepted transiently and immediately closed
(`server.available()` then `stop()`, lines 155-158) and never queued, the
pool itself is unchanged, every existing client is still valid and
connected, and the dispatch loop then services each of the three slots
independently, slot by slot. -/
theorem c7_fourth_client_rejected (pool : List Slot) (nc : Slot) (az alt : Int)
    (hlen : pool.length = MAX_SRV_CLIENTS)
    (hbusy : ∀ x ∈ pool, slotFree x = false) :
    acceptPhase pool true nc = (pool, [PoolEvent.acceptAndClose nc.cid]) ∧
    (∀ x ∈ pool, x.valid = true ∧ x.connected = true) ∧
    dispatchAll az alt (acceptPhase pool true nc).1 =
      pool.map (dispatchSlot az alt) := by
  have hscan := scanAssign_allBusy pool nc hbusy
  have hacc : acceptPhase pool true nc = (pool, [PoolEvent.acceptAndClose nc.cid]) := hscan
  refine ⟨hacc, fun x hx => slotFree_false_live x (hbusy x hx), ?_⟩
  rw [hacc]
  rfl

/-- C7 witness: a full pool of three live clients rejects the pending
client with id 9 and keeps servicing the three. -/
theorem c7_witness :
    acceptPhase [⟨true, true, 1, []⟩, ⟨true, true, 2, []⟩, ⟨true, true, 3, []⟩]
        true ⟨true, true, 9, []⟩ =
      ([⟨true, true, 1, []⟩, ⟨true, true, 2, []⟩, ⟨true, true, 3, []⟩],
        [PoolEvent.acceptAndClose 9]) ∧
    (∀ x ∈ ([⟨true, true, 1, []⟩, ⟨true, true, 2, []⟩,
        ⟨true, true, 3, []⟩] : List Slot), x.valid = true ∧ x.connected = true) ∧
    dispatchAll 0 0 (acceptPhase [⟨true, true, 1, []⟩, ⟨true, true, 2, []⟩,
        ⟨true, true, 3, []⟩] true ⟨true, true, 9, []⟩).1 =
      ([⟨true, true, 1, []⟩, ⟨true, true, 2, []⟩,
        ⟨true, true, 3, []⟩] : List Slot).map (dispatchSlot 0 0) :=
  c7_fourth_client_rejected
    [⟨true, true, 1, []⟩, ⟨true, true, 2, []⟩, ⟨true, true, 3, []⟩]
    ⟨true, true, 9, []⟩ 0 0 rfl (by decide)

/-- C8: the number of live connections never exceeds the number of slots
(each slot holds at most one connection object by construction), the accept
scan preserves the slot count, and when the slots before index `a.length`
are all busy and slot `a.length` is free or disconnected, the pending
client is accepted into exactly that first reusable slot, the stale handle
being stopped first when one is present (`stop()` at line 147). -/
theorem c8_slot_reuse (a : List Slot) (s : Slot) (b : List Slot) (nc : Slot)
    (ha : ∀ x ∈ a, slotFree x = false) (hs : slotFree s = true) :
    countLive (a ++ s :: b) ≤ (a ++ s :: b).length ∧
    (scanAssign (a ++ s :: b) nc).1 = a ++ nc :: b ∧
    (scanAssign (a ++ s :: b) nc).2 =
      (if s.valid = true then [PoolEvent.stopStale a.length] else []) ++
        [PoolEvent.assignSlot a.length nc.cid] ∧
    (scanAssign (a ++ s :: b) nc).1.length = (a ++ s :: b).length := by
  have h := scanAssign_firstFree a s b nc ha hs
  refine ⟨countLive_le _, ?_, ?_, ?_⟩
  · rw [h]
  · rw [h]
  · rw [h]
    simp

/-- C8 witness: slot 0 is live, slot 1 holds a disconnected stale client,
slot 2 is empty; the new client with id 7 reuses slot 1, the stale handle
being stopped first. -/
theorem c8_witness :
    countLive ([Slot.mk true true 1 []] ++ Slot.mk true false 2 [] :: [Slot.mk false false 0 []]) ≤
      ([Slot.mk true true 1 []] ++ Slot.mk true false 2 [] :: [Slot.mk false false 0 []]).length ∧
    (scanAssign ([Slot.mk true true 1 []] ++ Slot.mk true false 2 [] :: [Slot.mk false false 0 []])
        (Slot.mk true true 7 [])).1 =
      [Slot.mk true true 1 []] ++ Slot.mk true true 7 [] :: [Slot.mk false false 0 []] ∧
    (scanAssign ([Slot.mk true true 1 []] ++ Slot.mk true false 2 [] :: [Slot.mk false false 0 []])
        (Slot.mk true true 7 [])).2 =
      (if (Slot.mk true false 2 []).valid = true
        then [PoolEvent.stopStale [Slot.mk true true 1 []].length] else []) ++
        [PoolEvent.assignSlot [Slot.mk true true 1 []].length 7] ∧
    (scanAssign ([Slot.mk true true 1 []] ++ Slot.mk true false 2 [] :: [Slot.mk false false 0 []])
        (Slot.mk true true 7 [])).1.length =
      ([Slot.mk true true 1 []] ++ Slot.mk true false 2 [] :: [Slot.mk false false 0 []]).length :=
  c8_slot_reuse [Slot.mk true true 1 []] (Slot.mk true false 2 []) [Slot.mk false false 0 []]
    (Slot.mk true true 7 []) (by decide) (by decide)

/-- C1 counterexample: with a stored azimuth of 7, consuming the malformed
line "x" (byte 120 then line-feed) does NOT retain the previous value —
the run loop executes `Azimuth_pos = atol(buf)` (line 131) and `atol`
returns 0 on a non-numeric line, so the stored azimuth becomes 0 ≠ 7. -/
theorem c1_counterexample :
    (runSystem
      { net := setupNetwork false ⟨1, 2, 3, 4⟩, serial := initSerial,
        azimuth := 7, altitude := 0,
        pool := List.replicate MAX_SRV_CLIENTS emptySlot }
      (serialInputs [120, 10])).azimuth = 0 ∧ (0 : Int) ≠ 7 := by
  exact ⟨by decide, by decide⟩

/-- C1 (amended): a completed non-empty line whose contents do not parse as
a decimal integer does NOT leave the stored azimuth unchanged: the run loop
assigns `atol`'s failure result, so `Azimuth_pos` becomes 0 whatever its
previous value was. -/
theorem c1_malformed_line_sets_azimuth_zero (st : SystemState) (l : List Nat)
    (hpos : st.serial.pos = 0)
    (hpl : ∀ c ∈ l, PlainByte c) (hne : l ≠ [])
    (hlen : l.length ≤ BUFFER_SIZE - 1)
    (hmal : leadingDigitFree l = true) :
    (runSystem st (serialInputs (l.map Int.ofNat ++ [10]))).azimuth = 0 := by
  have hsa := runSystem_sa (l.map Int.ofNat ++ [10]) st
  have hser : st.serial = ⟨0, st.serial.str⟩ := by
    rw [← hpos]
  rw [hser] at hsa
  rw [runSA_line st.serial.str l st.azimuth hpl hne hlen] at hsa
  have h2 := congrArg Prod.snd hsa
  simp only [] at h2
  rw [h2, atol_of_leadingDigitFree l hmal]

/-- C1 witness: the amended theorem applied to the initial system state
with azimuth 7 and the malformed line "x". -/
theorem c1_witness :
    (runSystem
      { net := setupNetwork false ⟨1, 2, 3, 4⟩, serial := initSerial,
        azimuth := 7, altitude := 0,
        pool := List.replicate MAX_SRV_CLIENTS emptySlot }
      (serialInputs (([120] : List Nat).map Int.ofNat ++ [10]))).azimuth = 0 :=
  c1_malformed_line_sets_azimuth_zero _ [120] rfl (by decide) (by decide)
    (by decide) (by decide)

/-- C2 counterexample: the ten-digit line "9999999999" has digit count
below the buffer capacity, and the value returned at the line-feed does
equal the digit count, but parsing the accumulated buffer does NOT yield
the original value: on the 32-bit target `atol` clamps at
`LONG_MAX = 2147483647`, so the stored azimuth is 2147483647, not
9999999999. -/
theorem c2_counterexample :
    (encDigits 9999999999).length < BUFFER_SIZE ∧
    (readFromSerial (runParser (initSystem false ⟨0, 0, 0, 0⟩).serial
        ((encDigits 9999999999).map Int.ofNat)) 10).2 =
      Int.ofNat (encDigits 9999999999).length ∧
    (runSystem (initSystem false ⟨0, 0, 0, 0⟩)
        (serialInputs ((encDigits 9999999999).map Int.ofNat ++ [10]))).azimuth =
      2147483647 ∧
    (2147483647 : Int) ≠ 9999999999 :=
  ⟨by decide, by decide, by decide, by decide⟩

/-- C2 (amended): for the byte sequence consisting of exactly one
line-feed-terminated line of decimal digits (the sender's encoding of the
encoder value `n`), with digit count below the buffer capacity and the
value representable in the target's 32-bit `long` — as every value the
sender can emit is — the value `readFromSerial` returns at the line-feed
equals the digit count, and the run loop stores exactly `n` into
`Azimuth_pos` by parsing the accumulated buffer; for larger values `atol`
clamps at `LONG_MAX` instead. -/
theorem c2_digit_line_roundtrip (joinOk : Bool) (addr : IPv4) (n : Nat)
    (hn : n ≤ 2147483647)
    (hlen : (encDigits n).length < BUFFER_SIZE) :
    (readFromSerial (runParser (initSystem joinOk addr).serial
        ((encDigits n).map Int.ofNat)) 10).2 = Int.ofNat (encDigits n).length ∧
    (runSystem (initSystem joinOk addr)
        (serialInputs ((encDigits n).map Int.ofNat ++ [10]))).azimuth =
      Int.ofNat n := by
  have hlen2 : (encDigits n).length ≤ BUFFER_SIZE - 1 := by omega
  have hrp : runParser ⟨0, []⟩ ((encDigits n).map Int.ofNat) =
      ⟨(encDigits n).length, encDigits n⟩ :=
    runParser_line [] (encDigits n) (encDigits_plain n) (encDigits_ne_nil n) hlen2
  constructor
  · show (readFromSerial (runParser ⟨0, []⟩ ((encDigits n).map Int.ofNat)) 10).2 = _
    rw [hrp, readFromSerial]
    rw [if_pos (by norm_num), if_neg (by norm_num), if_pos rfl]
  · have hsa := runSystem_sa ((encDigits n).map Int.ofNat ++ [10])
      (initSystem joinOk addr)
    have hline := runSA_line [] (encDigits n) 0 (encDigits_plain n)
      (encDigits_ne_nil n) hlen2
    have : runSA ((initSystem joinOk addr).serial, (initSystem joinOk addr).azimuth)
        ((encDigits n).map Int.ofNat ++ [10]) = (⟨0, encDigits n⟩, atol (encDigits n)) := hline
    rw [this] at hsa
    have h2 := congrArg Prod.snd hsa
    simp only [] at h2
    rw [h2, atol_encDigits n hn]
    rfl

/-- C2 witness: the round trip for the encoder value 10199 starting from
the initial system state. -/
theorem c2_witness :
    (readFromSerial (runParser (initSystem false ⟨0, 0, 0, 0⟩).serial
        ((encDigits 10199).map Int.ofNat)) 10).2 =
      Int.ofNat (encDigits 10199).length ∧
    (runSystem (initSystem false ⟨0, 0, 0, 0⟩)
        (serialInputs ((encDigits 10199).map Int.ofNat ++ [10]))).azimuth =
      Int.ofNat 10199 :=
  c2_digit_line_roundtrip false ⟨0, 0, 0, 0⟩ 10199 (by decide) (by decide)

/-- C3: the accumulated position never exceeds the buffer capacity
(`BUFFER_SIZE - 1` stored characters, the last array cell being reserved
for the terminating NUL), a byte arriving when the buffer is full is
silently dropped, the position is reset to zero exactly when a line-feed
is observed (a line-feed always resets it, no other byte ever lowers it),
and the line eventually completed from plain bytes is the truncated prefix
of the input, never corrupted data past capacity. -/
theorem c3_buffer_invariants :
    (∀ (input : List Int) (s : SerialState), s.pos ≤ BUFFER_SIZE - 1 →
        (runParser s input).pos ≤ BUFFER_SIZE - 1) ∧
    (∀ s : SerialState, (readFromSerial s 10).1.pos = 0) ∧
    (∀ (s : SerialState) (c : Int), c ≠ 10 → s.pos ≤ (readFromSerial s c).1.pos) ∧
    (∀ (s : SerialState) (c : Int), s.pos = BUFFER_SIZE - 1 → 0 < c → c ≠ 10 →
        c ≠ 13 → readFromSerial s c = (s, 0)) ∧
    (∀ l : List Nat, (∀ c ∈ l, PlainByte c) →
        runParser initSerial (l.map Int.ofNat) =
          ⟨min l.length (BUFFER_SIZE - 1), l.take (BUFFER_SIZE - 1)⟩) := by
  refine ⟨?_, ?_, ?_, ?_, ?_⟩
  · intro input s h
    exact runParser_pos_le input s h
  · intro s
    rw [readFromSerial, if_pos (by norm_num), if_neg (by norm_num), if_pos rfl]
  · intro s c h
    exact readFromSerial_pos_mono s c h
  · intro s c h h0 h10 h13
    exact readFromSerial_full s c h h0 h10 h13
  · intro l hpl
    have := runParser_plain l 0 [] hpl rfl (Nat.zero_le _)
    simpa using this

/-- C3 witness: the invariants instantiated at concrete states and the
two-byte input "AB". -/
theorem c3_witness :
    (runParser ⟨0, [49]⟩ [65, 66, 10, -1]).pos ≤ BUFFER_SIZE - 1 ∧
    (readFromSerial ⟨2, [49, 50]⟩ 10).1.pos = 0 ∧
    (⟨1, [65]⟩ : SerialState).pos ≤ (readFromSerial ⟨1, [65]⟩ 13).1.pos ∧
    readFromSerial ⟨BUFFER_SIZE - 1, List.replicate (BUFFER_SIZE - 1) 65⟩ 66 =
      (⟨BUFFER_SIZE - 1, List.replicate (BUFFER_SIZE - 1) 65⟩, 0) ∧
    runParser initSerial (([65, 66] : List Nat).map Int.ofNat) =
      ⟨min ([65, 66] : List Nat).length (BUFFER_SIZE - 1),
        ([65, 66] : List Nat).take (BUFFER_SIZE - 1)⟩ :=
  ⟨c3_buffer_invariants.1 [65, 66, 10, -1] ⟨0, [49]⟩ (by decide),
    c3_buffer_invariants.2.1 ⟨2, [49, 50]⟩,
    c3_buffer_invariants.2.2.1 ⟨1, [65]⟩ 13 (by decide),
    c3_buffer_invariants.2.2.2.1 _ 66 rfl (by decide) (by decide) (by decide),
    c3_buffer_invariants.2.2.2.2 [65, 66] (by decide)⟩

/-- C4: for every stored position pair, a `G` command produces the HTTP
response whose declared Content-length field (the single byte written by
`write(contentSize)` at line 183) has exactly the value of the byte length
of the literal formatted body string (the `sprintf` return of line 181,
headers not included), and right after sending the body the server drains
the remaining buffered input, flushes, and stops that connection. -/
theorem c4_g_response_content_length (az alt : Int) (c : Slot) (rest : List Nat)
    (hv : c.valid = true) (hc : c.connected = true) (hib : c.inbox = 71 :: rest)
    (hlen : (formatQ az alt).length < 256) :
    dispatchSlot az alt c =
      ({ c with inbox := [], connected := false }, gEvents az alt) ∧
    gEvents az alt =
      [TcpEvent.send (strBytes httpHeaderStr),
        TcpEvent.send [(formatQ az alt).length],
        TcpEvent.send (strBytes "\r\n\r\n"),
        TcpEvent.send (strBytes (formatQ az alt) ++ strBytes "\r\n"),
        TcpEvent.drainInbox, TcpEvent.flush, TcpEvent.stopConn] := by
  constructor
  · rw [dispatchSlot, hv, hc, hib]
    simp
  · rw [gEvents, Nat.mod_eq_of_lt hlen]

/-- C4 witness: the `G` dispatch at the home position pair (0, 0) for a
connected client whose inbox holds "GA". -/
theorem c4_witness :
    dispatchSlot 0 0 (Slot.mk true true 5 [71, 65]) =
      ({ Slot.mk true true 5 [71, 65] with inbox := [], connected := false },
        gEvents 0 0) ∧
    gEvents 0 0 =
      [TcpEvent.send (strBytes httpHeaderStr),
        TcpEvent.send [(formatQ 0 0).length],
        TcpEvent.send (strBytes "\r\n\r\n"),
        TcpEvent.send (strBytes (formatQ 0 0) ++ strBytes "\r\n"),
        TcpEvent.drainInbox, TcpEvent.flush, TcpEvent.stopConn] :=
  c4_g_response_content_length 0 0 (Slot.mk true true 5 [71, 65]) [65]
    rfl rfl rfl (by decide)

/-- C5 counterexample: at the initial position pair the `Q` branch sends
the bytes of "0\t0\t\n" FOLLOWED by "\r\n" — `println` (line 174) appends a
carriage-return/line-feed — so the response is not exactly the five bytes
`0\t0\t\n` and additional bytes are appended, contrary to the claim. -/
theorem c5_counterexample :
    (dispatchSlot 0 0 (Slot.mk true true 0 [81])).2 =
      [TcpEvent.send (strBytes "0\t0\t\n\r\n")] ∧
    strBytes "0\t0\t\n\r\n" ≠ strBytes "0\t0\t\n" := by
  exact ⟨by decide, by decide⟩

/-- C5 (amended): a `Q` command received before any serial data and before
any local encoder movement is answered from the zero-initialised position
pair — both fields of the freshly-booted system are 0 — and the response is
the five bytes `0\t0\t\n` of the formatted string followed by the
carriage-return/line-feed pair that `println` appends. -/
theorem c5_initial_q_response (joinOk : Bool) (addr : IPv4) (cid : Nat)
    (rest : List Nat) :
    (initSystem joinOk addr).azimuth = 0 ∧
    (initSystem joinOk addr).altitude = 0 ∧
    dispatchSlot 0 0 (Slot.mk true true cid (81 :: rest)) =
      (Slot.mk true true cid rest,
        [TcpEvent.send (strBytes (formatQ 0 0) ++ strBytes "\r\n")]) ∧
    strBytes (formatQ 0 0) = [48, 9, 48, 9, 10] := by
  refine ⟨rfl, rfl, rfl, by decide⟩
